import Mathlib

/-!
Verification of the pricing and discount engine (`algorthims.py`).

The Python source is shallowly embedded below.  Monetary amounts and
weights (Python `float`) are modelled as `ℚ`; Python `int` as `ℤ`;
`datetime` timestamps as `ℤ` (only their ordering is used); Python
`Optional` as `Option`.  Code that can raise (the unguarded
`quantity // buy_quantity` floor division, which raises
`ZeroDivisionError` when `buy_quantity = 0`, and the `best_rule.name`
attribute access on `None`) is modelled with `Option`: `none` is an
exception escaping the call, `some` a normal return.
-/

/-- `DiscountType` enum of the source. -/
inductive DiscountType where
  | percentage
  | fixed_amount
  | buy_x_get_y
  | tiered
  | bundle
deriving DecidableEq, Repr

/-- `CustomerTier` enum of the source. -/
inductive CustomerTier where
  | bronze
  | silver
  | gold
  | platinum
  | vip
deriving DecidableEq, Repr, Fintype

/-- `Product` dataclass. -/
structure Product where
  id : ℤ
  name : String
  price : ℚ
  category : String
  stock : ℤ
  cost_price : ℚ
  weight : ℚ
deriving DecidableEq, Repr

/-- `CartItem` dataclass. -/
structure CartItem where
  product : Product
  quantity : ℤ
deriving DecidableEq, Repr

/-- `CartItem.subtotal`: `self.product.price * self.quantity`. -/
def CartItem.subtotal (item : CartItem) : ℚ :=
  item.product.price * item.quantity

/-- `DiscountRule` dataclass.  `max_discount` defaults to `float('inf')`
in the source; `none` here models that infinite (absent) cap and
`some m` a finite cap `m`.  `tier_thresholds` is a `dict` in the source;
it is modelled as its insertion-ordered `items()` list, whose keys are
pairwise distinct (a `dict` cannot hold duplicate keys). -/
structure DiscountRule where
  name : String
  discount_type : DiscountType
  value : ℚ
  min_quantity : ℤ
  min_amount : ℚ
  max_discount : Option ℚ
  applicable_categories : List String
  applicable_products : List ℤ
  customer_tiers : List CustomerTier
  start_date : Option ℤ
  end_date : Option ℤ
  buy_quantity : ℤ
  get_quantity : ℤ
  tier_thresholds : List (ℚ × ℚ)
deriving DecidableEq, Repr

/-- `DiscountRule.is_active`, with the evaluation instant `now` made an
explicit parameter (the source reads `datetime.now()`): inactive iff
`now` is before a set `start_date` or after a set `end_date`. -/
def DiscountRule.is_active (rule : DiscountRule) (now : ℤ) : Bool :=
  (match rule.start_date with
   | some s => decide (s ≤ now)
   | none => true) &&
  (match rule.end_date with
   | some e => decide (now ≤ e)
   | none => true)

/-- `Customer` dataclass. -/
structure Customer where
  id : String
  name : String
  tier : CustomerTier
  total_spent : ℚ
  total_orders : ℤ
  join_date : ℤ
deriving DecidableEq, Repr

/-- `Customer.get_tier_discount`: the fixed tier → percent table. -/
def Customer.get_tier_discount (c : Customer) : ℚ :=
  match c.tier with
  | .bronze => 0
  | .silver => 5
  | .gold => 10
  | .platinum => 15
  | .vip => 20

/-- `PricingEngine._is_rule_applicable`: all five filters must pass
(an empty allow-list means "no restriction", mirroring Python's
truthiness test on the list). -/
def isRuleApplicable (item : CartItem) (rule : DiscountRule) (customer : Customer) : Bool :=
  if item.quantity < rule.min_quantity then false
  else if item.subtotal < rule.min_amount then false
  else if rule.applicable_categories ≠ [] ∧ item.product.category ∉ rule.applicable_categories then false
  else if rule.applicable_products ≠ [] ∧ item.product.id ∉ rule.applicable_products then false
  else if rule.customer_tiers ≠ [] ∧ customer.tier ∉ rule.customer_tiers then false
  else true

/-- `min(discount, rule.max_discount)` where `max_discount` may be
`float('inf')` (`none`): `min(d, inf) = d`. -/
def applyCap (d : ℚ) (cap : Option ℚ) : ℚ :=
  match cap with
  | none => d
  | some m => min d m

/-- One insertion step of `sorted(rule.tier_thresholds.items())`:
insert a pair into a list sorted by threshold.  (The source sorts the
`(threshold, percent)` tuples; since the thresholds are `dict` keys and
hence pairwise distinct, the tuple order coincides with the order on
the first component.) -/
def insertByKey (p : ℚ × ℚ) : List (ℚ × ℚ) → List (ℚ × ℚ)
  | [] => [p]
  | q :: qs => if p.1 ≤ q.1 then p :: q :: qs else q :: insertByKey p qs

/-- `sorted(rule.tier_thresholds.items())`: sort the threshold pairs
ascending by threshold. -/
def sortByKey (l : List (ℚ × ℚ)) : List (ℚ × ℚ) :=
  l.foldr insertByKey []

/-- The `TIERED` loop of `calculate_item_discount`: for each
`(threshold, percent)` pair in sorted order, overwrite the candidate
discount when the item subtotal meets the threshold. -/
def tieredLoop (s : ℚ) : List (ℚ × ℚ) → ℚ → ℚ
  | [], d => d
  | tp :: rest, d => tieredLoop s rest (if tp.1 ≤ s then s * (tp.2 / 100) else d)

/-- `PricingEngine.calculate_item_discount`.  Returns `none` exactly
when the source raises: the `BUY_X_GET_Y` branch divides by
`rule.buy_quantity` without a zero guard (`quantity >= 0 = buy_quantity`
passes the entry check, then `quantity // 0` raises
`ZeroDivisionError`).  Python's `//` on `int` is floor division,
i.e. `Int.fdiv`. -/
def calculate_item_discount (now : ℤ) (item : CartItem) (rule : DiscountRule)
    (customer : Customer) : Option ℚ :=
  if !(rule.is_active now) then some 0
  else if !(isRuleApplicable item rule customer) then some 0
  else
    let d? : Option ℚ :=
      match rule.discount_type with
      | .percentage => some (item.subtotal * (rule.value / 100))
      | .fixed_amount => some (min rule.value item.subtotal)
      | .buy_x_get_y =>
          if rule.buy_quantity ≤ item.quantity then
            if rule.buy_quantity = 0 then none
            else
              let free_items := (Int.fdiv item.quantity rule.buy_quantity) * rule.get_quantity
              let free_items := min free_items item.quantity
              some ((free_items : ℚ) * item.product.price)
          else some 0
      | .tiered => some (tieredLoop item.subtotal (sortByKey rule.tier_thresholds) 0)
      | .bundle => some 0
    d?.map (fun d => applyCap d rule.max_discount)

/-- The inner loop of `calculate_best_discount_combination`: scan the
rules keeping the best (strictly greater) discount and the rule that
produced it. -/
def bestLoop (now : ℤ) (item : CartItem) (customer : Customer) :
    List DiscountRule → ℚ → Option DiscountRule → Option (ℚ × Option DiscountRule)
  | [], best, bestRule => some (best, bestRule)
  | r :: rs, best, bestRule =>
      match calculate_item_discount now item r customer with
      | none => none
      | some d =>
          if best < d then bestLoop now item customer rs d (some r)
          else bestLoop now item customer rs best bestRule

/-- Best discount and winning rule for one item (`best_discount = 0.0`,
`best_rule = None` initially). -/
def bestForItem (now : ℤ) (rules : List DiscountRule) (item : CartItem)
    (customer : Customer) : Option (ℚ × Option DiscountRule) :=
  bestLoop now item customer rules 0 none

/-- One value of the `item_discounts` dict. -/
structure ItemDiscountEntry where
  product_name : String
  discount_amount : ℚ
  rule_name : String
  original_price : ℚ
deriving DecidableEq, Repr

/-- The `results` dict of `calculate_best_discount_combination`.  The
`item_discounts` dict is modelled as its insertion-ordered association
list, keyed by the `(product.id, quantity)` pair underlying the
`f"{id}_{quantity}"` string key (distinct pairs give distinct
strings). -/
structure DiscountReport where
  item_discounts : List ((ℤ × ℤ) × ItemDiscountEntry)
  total_discount : ℚ
  applied_rules : List String
  subtotal : ℚ
deriving DecidableEq, Repr

/-- Python dict assignment `d[k] = v`: overwrite in place if the key is
present, else append. -/
def dictInsert (l : List ((ℤ × ℤ) × ItemDiscountEntry)) (k : ℤ × ℤ)
    (v : ItemDiscountEntry) : List ((ℤ × ℤ) × ItemDiscountEntry) :=
  if l.any (fun p => decide (p.1 = k)) then
    l.map (fun p => if p.1 = k then (k, v) else p)
  else l ++ [(k, v)]

/-- Body of the per-item loop of `calculate_best_discount_combination`:
if the best discount is positive, record the entry, add it to the
running total and append the winning rule's name (if new).  Reading
`best_rule.name` when `best_rule` is `None` would raise — modelled by
`none` (it is in fact unreachable). -/
def comboStep (now : ℤ) (customer : Customer) (rules : List DiscountRule)
    (report : DiscountReport) (item : CartItem) : Option DiscountReport :=
  match bestForItem now rules item customer with
  | none => none
  | some (best, bestRule) =>
      if 0 < best then
        match bestRule with
        | none => none
        | some r =>
            some { report with
              item_discounts := dictInsert report.item_discounts
                (item.product.id, item.quantity)
                ⟨item.product.name, best, r.name, item.subtotal⟩
              total_discount := report.total_discount + best
              applied_rules :=
                if r.name ∈ report.applied_rules then report.applied_rules
                else report.applied_rules ++ [r.name] }
      else some report

/-- The per-item loop of `calculate_best_discount_combination`. -/
def comboLoop (now : ℤ) (customer : Customer) (rules : List DiscountRule) :
    List CartItem → DiscountReport → Option DiscountReport
  | [], report => some report
  | item :: rest, report =>
      match comboStep now customer rules report item with
      | none => none
      | some report' => comboLoop now customer rules rest report'

/-- `PricingEngine.calculate_best_discount_combination`.  The engine's
`self.discount_rules` list is the explicit `rules` parameter. -/
def calculate_best_discount_combination (now : ℤ) (rules : List DiscountRule)
    (cart_items : List CartItem) (customer : Customer) : Option DiscountReport :=
  comboLoop now customer rules cart_items
    ⟨[], 0, [], (cart_items.map CartItem.subtotal).sum⟩

/-- `PricingEngine.calculate_shipping_fee`, with the engine's fixed
`shipping_rates` brackets inlined in insertion order (the third
bracket's upper bound is `float('inf')`, so only its lower bound is
tested); then the over-5 kg weight surcharge. -/
def calculate_shipping_fee (subtotal : ℚ) (weight : ℚ) : ℚ :=
  let base_fee : ℚ :=
    if 0 ≤ subtotal ∧ subtotal < 200000 then 50000
    else if 200000 ≤ subtotal ∧ subtotal < 500000 then 30000
    else if 500000 ≤ subtotal then 0
    else 0
  if 5 < weight then base_fee + (weight - 5) * 10000 else base_fee

/-- The engine's `self.tax_rate = 0.1`. -/
def tax_rate : ℚ := 1 / 10

/-- The result dict of `calculate_final_price`. -/
structure PriceBreakdown where
  subtotal : ℚ
  product_discount : ℚ
  customer_tier_discount : ℚ
  total_discount : ℚ
  tax_amount : ℚ
  shipping_fee : ℚ
  total : ℚ
  total_weight : ℚ
  discount_details : DiscountReport
  savings_percentage : ℚ
deriving DecidableEq, Repr

/-- `PricingEngine.calculate_final_price`: the six-stage pipeline. -/
def calculate_final_price (now : ℤ) (rules : List DiscountRule)
    (cart_items : List CartItem) (customer : Customer)
    (apply_customer_discount : Bool) : Option PriceBreakdown :=
  let subtotal := (cart_items.map CartItem.subtotal).sum
  let total_weight := (cart_items.map (fun i => i.product.weight * (i.quantity : ℚ))).sum
  match calculate_best_discount_combination now rules cart_items customer with
  | none => none
  | some discount_info =>
      let product_discount := discount_info.total_discount
      let customer_discount :=
        if apply_customer_discount then
          (subtotal - product_discount) * (customer.get_tier_discount / 100)
        else 0
      let taxable_amount := subtotal - product_discount - customer_discount
      let tax_amount := taxable_amount * tax_rate
      let shipping_fee := calculate_shipping_fee subtotal total_weight
      let total := subtotal - product_discount - customer_discount + tax_amount + shipping_fee
      some {
        subtotal := subtotal
        product_discount := product_discount
        customer_tier_discount := customer_discount
        total_discount := product_discount + customer_discount
        tax_amount := tax_amount
        shipping_fee := shipping_fee
        total := total
        total_weight := total_weight
        discount_details := discount_info
        savings_percentage :=
          if 0 < subtotal then (product_discount + customer_discount) / subtotal * 100 else 0 }

/-- Python `int()` applied to a rational value: truncation toward
zero. -/
def pyInt (q : ℚ) : ℤ :=
  if q < 0 then ⌈q⌉ else ⌊q⌋

/-- The `tier_multipliers` table of `loyalty_point_calculation`
(`1.0, 1.2, 1.5, 2.0, 3.0`). -/
def tier_multiplier (tier : CustomerTier) : ℚ :=
  match tier with
  | .bronze => 1
  | .silver => 6 / 5
  | .gold => 3 / 2
  | .platinum => 2
  | .vip => 3

/-- `AdvancedPricingAlgorithms.loyalty_point_calculation`. -/
def loyalty_point_calculation (amount_spent : ℚ) (tier : CustomerTier)
    (bonus_multiplier : ℚ) : ℤ :=
  let base_points := pyInt (amount_spent / 1000)
  let multiplier := tier_multiplier tier * bonus_multiplier
  pyInt ((base_points : ℚ) * multiplier)

/-- Rank of a tier in the order Bronze < Silver < Gold < Platinum < VIP. -/
def tierRank (t : CustomerTier) : ℕ :=
  match t with
  | .bronze => 0
  | .silver => 1
  | .gold => 2
  | .platinum => 3
  | .vip => 4

/-- The discount a single rule yields for an item, as a plain value:
the returned amount, with 0 standing in for the exceptional case (which
the hypotheses of the theorems using it rule out). -/
def discountValue (now : ℤ) (item : CartItem) (customer : Customer)
    (r : DiscountRule) : ℚ :=
  (calculate_item_discount now item r customer).getD 0

/-- Reference recursion mirroring the best-rule scan of
`calculate_best_discount_combination`, on plain values. -/
def specPair (now : ℤ) (item : CartItem) (customer : Customer) :
    List DiscountRule → ℚ → Option DiscountRule → ℚ × Option DiscountRule
  | [], b, w => (b, w)
  | r :: rs, b, w =>
      if b < discountValue now item customer r then
        specPair now item customer rs (discountValue now item customer r) (some r)
      else specPair now item customer rs b w

/-- The greatest discount any rule yields for an item (0 when no rule
yields a positive discount). -/
def bestDiscountSpec (now : ℤ) (rules : List DiscountRule) (item : CartItem)
    (customer : Customer) : ℚ :=
  rules.foldl (fun b r => max b (discountValue now item customer r)) 0

/-- The winning rule for an item: the first rule in the caller-supplied
order attaining the greatest discount, when that is positive. -/
def bestRuleSpec (now : ℤ) (rules : List DiscountRule) (item : CartItem)
    (customer : Customer) : Option DiscountRule :=
  if 0 < bestDiscountSpec now rules item customer then
    rules.find? (fun r =>
      decide (discountValue now item customer r = bestDiscountSpec now rules item customer))
  else none

/-- C1: `calculate_final_price` composes its stages in the fixed order —
`customer_discount = (subtotal − product_discount) × tier_percent / 100`
when `apply_customer_discount` (else 0), `tax = (subtotal −
product_discount − customer_discount) × 0.10`, shipping is computed on
the original undiscounted subtotal, and `total = subtotal −
product_discount − customer_discount + tax + shipping`; for a cart of
one item with unit price 100000 and quantity 2, no rules, and a Bronze
customer it returns subtotal 200000, product_discount 0,
customer_discount 0, tax 20000, shipping 30000, total 250000. -/
theorem calculate_final_price_pipeline :
    (∀ (now : ℤ) (rules : List DiscountRule) (cart_items : List CartItem)
        (customer : Customer) (ap : Bool) (res : PriceBreakdown),
      calculate_final_price now rules cart_items customer ap = some res →
        res.subtotal = (cart_items.map CartItem.subtotal).sum ∧
        res.customer_tier_discount =
          (if ap then (res.subtotal - res.product_discount) * (customer.get_tier_discount / 100)
           else 0) ∧
        res.tax_amount =
          (res.subtotal - res.product_discount - res.customer_tier_discount) * (1 / 10) ∧
        res.shipping_fee =
          calculate_shipping_fee res.subtotal
            ((cart_items.map (fun i => i.product.weight * (i.quantity : ℚ))).sum) ∧
        res.total =
          res.subtotal - res.product_discount - res.customer_tier_discount +
            res.tax_amount + res.shipping_fee) ∧
    (∃ res : PriceBreakdown,
      calculate_final_price 0 [] [⟨⟨1, "p", 100000, "c", 0, 0, 0⟩, 2⟩]
          ⟨"id", "n", .bronze, 0, 0, 0⟩ true = some res ∧
        res.subtotal = 200000 ∧ res.product_discount = 0 ∧
        res.customer_tier_discount = 0 ∧ res.tax_amount = 20000 ∧
        res.shipping_fee = 30000 ∧ res.total = 250000) := by
  constructor
  · intro now rules cart_items customer ap res h
    unfold calculate_final_price at h
    cases hb : calculate_best_discount_combination now rules cart_items customer with
    | none => rw [hb] at h; exact absurd h (by simp)
    | some di =>
        rw [hb] at h
        simp only [Option.some.injEq] at h
        subst h
        refine ⟨rfl, rfl, rfl, rfl, rfl⟩
  · refine ⟨⟨200000, 0, 0, 0, 20000, 30000, 250000, 0, ⟨[], 0, [], 200000⟩, 0⟩,
      ?_, rfl, rfl, rfl, rfl, rfl, rfl⟩
    norm_num [calculate_final_price, calculate_best_discount_combination, comboLoop,
      comboStep, bestForItem, bestLoop, CartItem.subtotal, calculate_shipping_fee,
      tax_rate, Customer.get_tier_discount]

/-- Witness for C1: the pipeline equations instantiated at the
Scenario-1 cart. -/
theorem calculate_final_price_pipeline_witness :
    (200000 : ℚ) =
        ([(⟨⟨1, "p", 100000, "c", 0, 0, 0⟩, 2⟩ : CartItem)].map CartItem.subtotal).sum ∧
      (0 : ℚ) = (if true then ((200000 : ℚ) - 0) *
          (Customer.get_tier_discount ⟨"id", "n", .bronze, 0, 0, 0⟩ / 100) else 0) ∧
      (20000 : ℚ) = ((200000 : ℚ) - 0 - 0) * (1 / 10) ∧
      (30000 : ℚ) = calculate_shipping_fee 200000
        (([(⟨⟨1, "p", 100000, "c", 0, 0, 0⟩, 2⟩ : CartItem)].map
            (fun i => i.product.weight * (i.quantity : ℚ))).sum) ∧
      (250000 : ℚ) = (200000 : ℚ) - 0 - 0 + 20000 + 30000 :=
  calculate_final_price_pipeline.1 0 [] [⟨⟨1, "p", 100000, "c", 0, 0, 0⟩, 2⟩]
    ⟨"id", "n", .bronze, 0, 0, 0⟩ true
    ⟨200000, 0, 0, 0, 20000, 30000, 250000, 0, ⟨[], 0, [], 200000⟩, 0⟩
    (by norm_num [calculate_final_price, calculate_best_discount_combination, comboLoop,
      comboStep, bestForItem, bestLoop, CartItem.subtotal, calculate_shipping_fee,
      tax_rate, Customer.get_tier_discount])

/-- C6: for subtotal ≥ 0 and weight ≥ 0, `calculate_shipping_fee` is the
bracketed base fee — 50000 on [0, 200000), 30000 on [200000, 500000),
0 on [500000, ∞) — plus the over-5 kg surcharge `(weight − 5) × 10000`;
the brackets are half-open, non-overlapping and cover [0, ∞), as the
single if-chain form shows. -/
theorem calculate_shipping_fee_brackets (s w : ℚ) (hs : 0 ≤ s) (hw : 0 ≤ w) :
    calculate_shipping_fee s w =
      (if s < 200000 then 50000 else if s < 500000 then 30000 else 0)
      + (if 5 < w then (w - 5) * 10000 else 0) := by
  simp only [calculate_shipping_fee]
  have hbase :
      (if 0 ≤ s ∧ s < 200000 then (50000 : ℚ)
       else if 200000 ≤ s ∧ s < 500000 then 30000
       else if 500000 ≤ s then 0 else 0)
      = (if s < 200000 then 50000 else if s < 500000 then 30000 else 0) := by
    rcases lt_or_le s 200000 with hA | hA
    · rw [if_pos ⟨hs, hA⟩, if_pos hA]
    · rw [if_neg (by rintro ⟨-, h2⟩; exact absurd h2 (not_lt.2 hA)), if_neg (not_lt.2 hA)]
      rcases lt_or_le s 500000 with hB | hB
      · rw [if_pos ⟨hA, hB⟩, if_pos hB]
      · rw [if_neg (by rintro ⟨-, h2⟩; exact absurd h2 (not_lt.2 hB)),
          if_neg (not_lt.2 hB), if_pos hB]
  rw [hbase]
  rcases lt_or_le 5 w with hW | hW
  · rw [if_pos hW, if_pos hW]
  · rw [if_neg (not_lt.2 hW), if_neg (not_lt.2 hW), add_zero]

/-- Witness for C6 at subtotal 250000, weight 0. -/
theorem calculate_shipping_fee_brackets_witness :
    calculate_shipping_fee 250000 0 =
      (if (250000 : ℚ) < 200000 then 50000 else if (250000 : ℚ) < 500000 then 30000 else 0)
      + (if (5 : ℚ) < 0 then ((0 : ℚ) - 5) * 10000 else 0) :=
  calculate_shipping_fee_brackets 250000 0 (by norm_num) (by norm_num)

/-- C8: a rule whose set `end_date` is strictly before its set
`start_date` is inactive at every evaluation time, and
`calculate_item_discount` returns 0 for it on every item and
customer. -/
theorem rule_end_before_start_never_applies (now : ℤ) (item : CartItem)
    (rule : DiscountRule) (customer : Customer) (s e : ℤ)
    (hs : rule.start_date = some s) (he : rule.end_date = some e) (hlt : e < s) :
    rule.is_active now = false ∧
    calculate_item_discount now item rule customer = some 0 := by
  have ha : rule.is_active now = false := by
    simp only [DiscountRule.is_active, hs, he, Bool.and_eq_false_imp,
      decide_eq_true_eq, decide_eq_false_iff_not]
    omega
  refine ⟨ha, ?_⟩
  unfold calculate_item_discount
  rw [ha]
  rfl

/-- Witness for C8: a rule with `start_date = 10`, `end_date = 5`. -/
theorem rule_end_before_start_never_applies_witness :
    DiscountRule.is_active
        ⟨"r", .percentage, 10, 0, 0, none, [], [], [], some 10, some 5, 0, 0, []⟩ 0 = false ∧
      calculate_item_discount 0 ⟨⟨1, "p", 100, "c", 0, 0, 0⟩, 1⟩
        ⟨"r", .percentage, 10, 0, 0, none, [], [], [], some 10, some 5, 0, 0, []⟩
        ⟨"id", "n", .bronze, 0, 0, 0⟩ = some 0 :=
  rule_end_before_start_never_applies 0 ⟨⟨1, "p", 100, "c", 0, 0, 0⟩, 1⟩
    ⟨"r", .percentage, 10, 0, 0, none, [], [], [], some 10, some 5, 0, 0, []⟩
    ⟨"id", "n", .bronze, 0, 0, 0⟩ 10 5 rfl rfl (by norm_num)

/-- C9 (amended): for every amount ≥ 0 and bonus multiplier ≥ 0,
`loyalty_point_calculation` returns
`floor(floor(amount / 1000) × tier_multiplier × bonus_multiplier)`
(double floor preserved); in particular amount 1234000 with tier Gold
and bonus 1.5 yields 2776 points.  (For negative inputs Python's
`int()` truncates toward zero instead of flooring, so the unrestricted
claim fails — see the counterexample.) -/
theorem loyalty_points_double_floor :
    (∀ (amount : ℚ) (tier : CustomerTier) (bonus : ℚ), 0 ≤ amount → 0 ≤ bonus →
      loyalty_point_calculation amount tier bonus =
        ⌊((⌊amount / 1000⌋ : ℤ) : ℚ) * tier_multiplier tier * bonus⌋) ∧
    loyalty_point_calculation 1234000 .gold (3 / 2) = 2776 := by
  have hmulpos : ∀ t : CustomerTier, 0 < tier_multiplier t := by
    intro t
    cases t <;> norm_num [tier_multiplier]
  constructor
  · intro amount tier bonus ha hb
    unfold loyalty_point_calculation pyInt
    have h1 : ¬ amount / 1000 < 0 := not_lt.2 (by positivity)
    rw [if_neg h1]
    have h2 : ¬ ((⌊amount / 1000⌋ : ℤ) : ℚ) * (tier_multiplier tier * bonus) < 0 := by
      refine not_lt.2 (mul_nonneg ?_ (mul_nonneg (hmulpos tier).le hb))
      exact_mod_cast Int.floor_nonneg.2 (by positivity)
    rw [if_neg h2, mul_assoc]
  · unfold loyalty_point_calculation pyInt
    norm_num [tier_multiplier]

/-- Witness for C9 at the Scenario-5 input. -/
theorem loyalty_points_double_floor_witness :
    loyalty_point_calculation 1234000 .gold (3 / 2) =
      ⌊((⌊(1234000 : ℚ) / 1000⌋ : ℤ) : ℚ) * tier_multiplier .gold * (3 / 2)⌋ :=
  loyalty_points_double_floor.1 1234000 .gold (3 / 2) (by norm_num) (by norm_num)

/-- C9 counterexample: at amount −500 (tier Bronze, bonus 1) the code
truncates `int(-0.5)` to 0, while the claimed double-floor formula
gives `floor(floor(-0.5) × 1 × 1) = -1`. -/
theorem loyalty_points_negative_amount_cex :
    loyalty_point_calculation (-500) .bronze 1 = 0 ∧
    ⌊((⌊(-500 : ℚ) / 1000⌋ : ℤ) : ℚ) * tier_multiplier .bronze * 1⌋ = -1 := by
  constructor
  · unfold loyalty_point_calculation pyInt
    norm_num [tier_multiplier]
  · norm_num [tier_multiplier]

/-- C10: `calculate_item_discount` always returns normally when every
BuyXGetY rule has `buy_quantity ≥ 1`; and for an active, applicable
BuyXGetY rule with `buy_quantity = 0` (the field's default) and an item
with `quantity ≥ 0`, the unguarded floor division `quantity //
buy_quantity` divides by zero and no amount is returned. -/
theorem calculate_item_discount_totality :
    (∀ (now : ℤ) (item : CartItem) (rule : DiscountRule) (customer : Customer),
      (rule.discount_type = DiscountType.buy_x_get_y → 1 ≤ rule.buy_quantity) →
      (calculate_item_discount now item rule customer).isSome = true) ∧
    (∀ (now : ℤ) (item : CartItem) (rule : DiscountRule) (customer : Customer),
      rule.discount_type = DiscountType.buy_x_get_y → rule.buy_quantity = 0 →
      rule.is_active now = true → isRuleApplicable item rule customer = true →
      0 ≤ item.quantity →
      calculate_item_discount now item rule customer = none) := by
  constructor
  · intro now item rule customer hq
    simp only [calculate_item_discount]
    split
    · rfl
    split
    · rfl
    cases hdt : rule.discount_type
    · rfl
    · rfl
    · have h1 : rule.buy_quantity ≠ 0 := by have := hq hdt; omega
      split
      any_goals rfl
      rw [if_neg h1]
      split <;> rfl
    · rfl
    · rfl
  · intro now item rule customer hdt hq ha happ hqty
    simp only [calculate_item_discount, ha, happ, hdt, hq]
    rw [if_pos hqty]
    rfl

/-- Witness for C10: a Percentage rule returns normally; an active,
applicable BuyXGetY rule with `buy_quantity = 0` on an item with
quantity 3 raises (returns no amount). -/
theorem calculate_item_discount_totality_witness :
    (calculate_item_discount 0 ⟨⟨1, "p", 100, "c", 0, 0, 0⟩, 1⟩
        ⟨"r", .percentage, 10, 0, 0, none, [], [], [], none, none, 0, 0, []⟩
        ⟨"id", "n", .bronze, 0, 0, 0⟩).isSome = true ∧
    calculate_item_discount 0 ⟨⟨1, "p", 10, "c", 0, 0, 0⟩, 3⟩
        ⟨"b", .buy_x_get_y, 0, 0, 0, none, [], [], [], none, none, 0, 1, []⟩
        ⟨"id", "n", .bronze, 0, 0, 0⟩ = none :=
  ⟨calculate_item_discount_totality.1 0 ⟨⟨1, "p", 100, "c", 0, 0, 0⟩, 1⟩
      ⟨"r", .percentage, 10, 0, 0, none, [], [], [], none, none, 0, 0, []⟩
      ⟨"id", "n", .bronze, 0, 0, 0⟩ (fun h => nomatch h),
    calculate_item_discount_totality.2 0 ⟨⟨1, "p", 10, "c", 0, 0, 0⟩, 3⟩
      ⟨"b", .buy_x_get_y, 0, 0, 0, none, [], [], [], none, none, 0, 1, []⟩
      ⟨"id", "n", .bronze, 0, 0, 0⟩ rfl rfl rfl
      (by norm_num [isRuleApplicable, CartItem.subtotal]) (by norm_num)⟩

/-- Inserting into the sorted list is a permutation of consing. -/
theorem perm_insertByKey (p : ℚ × ℚ) (l : List (ℚ × ℚ)) :
    List.Perm (insertByKey p l) (p :: l) := by
  induction l with
  | nil => exact List.Perm.refl _
  | cons q qs ih =>
      simp only [insertByKey]
      split
      · exact List.Perm.refl _
      · exact (List.Perm.cons q ih).trans (List.Perm.swap p q qs)

/-- Sorting the threshold list is a permutation. -/
theorem perm_sortByKey (l : List (ℚ × ℚ)) : List.Perm (sortByKey l) l := by
  induction l with
  | nil => exact List.Perm.refl _
  | cons q qs ih =>
      simp only [sortByKey, List.foldr_cons]
      exact (perm_insertByKey q _).trans (List.Perm.cons q ih)

/-- Bounds invariant of the tiered-threshold loop: starting from an
accumulator within `[0, s]`, with all percents within `[0, 100]`, the
result stays within `[0, s]`. -/
theorem tieredLoop_bounds (s : ℚ) (hs : 0 ≤ s) (L : List (ℚ × ℚ))
    (hL : ∀ tp ∈ L, 0 ≤ tp.2 ∧ tp.2 ≤ 100) (d : ℚ) (h0 : 0 ≤ d) (h1 : d ≤ s) :
    0 ≤ tieredLoop s L d ∧ tieredLoop s L d ≤ s := by
  induction L generalizing d with
  | nil => exact ⟨h0, h1⟩
  | cons tp rest ih =>
      simp only [tieredLoop]
      refine ih (fun q hq => hL q (List.mem_cons_of_mem _ hq)) _ ?_ ?_
      · split
        · exact mul_nonneg hs (div_nonneg (hL tp (List.mem_cons_self _ _)).1 (by norm_num))
        · exact h0
      · split
        · have h2 := (hL tp (List.mem_cons_self _ _)).2
          have h3 : s * (tp.2 / 100) ≤ s * 1 :=
            mul_le_mul_of_nonneg_left (by linarith) hs
          linarith
        · exact h1

/-- Bounds of the final `min(discount, rule.max_discount)` step. -/
theorem applyCap_bounds (d0 s : ℚ) (cap : Option ℚ) (h0 : 0 ≤ d0) (h1 : d0 ≤ s)
    (hcap : ∀ m, cap = some m → 0 ≤ m) :
    0 ≤ applyCap d0 cap ∧ applyCap d0 cap ≤ s ∧
      ∀ m, cap = some m → applyCap d0 cap ≤ m := by
  cases cap with
  | none => exact ⟨h0, h1, fun m hm => nomatch hm⟩
  | some m =>
      refine ⟨le_min h0 (hcap m rfl), le_trans (min_le_left _ _) h1, fun m' hm' => ?_⟩
      cases hm'
      exact min_le_right _ _

/-- C2 counterexample: a Percentage rule with `value = 200` (and no
`max_discount` cap, the default) yields a discount of 200 on an item
whose subtotal is 100 — exceeding the item's subtotal, so the
unconditional claim is false. -/
theorem calculate_item_discount_bounds_cex :
    calculate_item_discount 0 ⟨⟨1, "p", 100, "c", 0, 0, 0⟩, 1⟩
        ⟨"r", .percentage, 200, 0, 0, none, [], [], [], none, none, 0, 0, []⟩
        ⟨"id", "n", .bronze, 0, 0, 0⟩ = some 200 ∧
      CartItem.subtotal ⟨⟨1, "p", 100, "c", 0, 0, 0⟩, 1⟩ = 100 ∧
      ¬ ((200 : ℚ) ≤ 100) := by
  refine ⟨?_, by norm_num [CartItem.subtotal], by norm_num⟩
  norm_num [calculate_item_discount, isRuleApplicable, DiscountRule.is_active,
    CartItem.subtotal, applyCap]

/-- C2 (amended): for an item with non-negative price and quantity and
a rule whose type-specific parameters are themselves within range
(Percentage value in [0, 100], FixedAmount value ≥ 0, BuyXGetY with
`buy_quantity ≥ 1` and `get_quantity ≥ 0`, Tiered percents in
[0, 100]) and whose cap, when finite, is non-negative, any amount
returned by `calculate_item_discount` is ≥ 0, ≤ the item's subtotal,
and ≤ the `max_discount` cap. -/
theorem calculate_item_discount_bounds
    (now : ℤ) (item : CartItem) (rule : DiscountRule) (customer : Customer) (d : ℚ)
    (hprice : 0 ≤ item.product.price) (hqty : 0 ≤ item.quantity)
    (hpct : rule.discount_type = DiscountType.percentage →
      0 ≤ rule.value ∧ rule.value ≤ 100)
    (hfix : rule.discount_type = DiscountType.fixed_amount → 0 ≤ rule.value)
    (hbuy : rule.discount_type = DiscountType.buy_x_get_y →
      1 ≤ rule.buy_quantity ∧ 0 ≤ rule.get_quantity)
    (htier : rule.discount_type = DiscountType.tiered →
      ∀ tp ∈ rule.tier_thresholds, 0 ≤ tp.2 ∧ tp.2 ≤ 100)
    (hcap : ∀ m, rule.max_discount = some m → 0 ≤ m)
    (hd : calculate_item_discount now item rule customer = some d) :
    0 ≤ d ∧ d ≤ item.subtotal ∧ ∀ m, rule.max_discount = some m → d ≤ m := by
  have hqQ : (0 : ℚ) ≤ (item.quantity : ℚ) := by exact_mod_cast hqty
  have hsub : 0 ≤ item.subtotal := mul_nonneg hprice hqQ
  simp only [calculate_item_discount] at hd
  split at hd
  · cases hd
    exact ⟨le_refl 0, hsub, fun m hm => hcap m hm⟩
  split at hd
  · cases hd
    exact ⟨le_refl 0, hsub, fun m hm => hcap m hm⟩
  rw [Option.map_eq_some'] at hd
  obtain ⟨d0, hd0, rfl⟩ := hd
  suffices h : 0 ≤ d0 ∧ d0 ≤ item.subtotal from
    applyCap_bounds d0 item.subtotal rule.max_discount h.1 h.2 hcap
  cases hdt : rule.discount_type
  · rw [hdt] at hd0
    have hd1 : some (item.subtotal * (rule.value / 100)) = some d0 := hd0
    cases hd1
    obtain ⟨hv0, hv1⟩ := hpct hdt
    constructor
    · exact mul_nonneg hsub (div_nonneg hv0 (by norm_num))
    · have h3 : item.subtotal * (rule.value / 100) ≤ item.subtotal * 1 :=
        mul_le_mul_of_nonneg_left (by linarith) hsub
      linarith
  · rw [hdt] at hd0
    have hd1 : some (min rule.value item.subtotal) = some d0 := hd0
    cases hd1
    exact ⟨le_min (hfix hdt) hsub, min_le_right _ _⟩
  · rw [hdt] at hd0
    obtain ⟨hb1, hg0⟩ := hbuy hdt
    have hd1 : (if rule.buy_quantity ≤ item.quantity then
        if rule.buy_quantity = 0 then (none : Option ℚ)
        else some (((min (Int.fdiv item.quantity rule.buy_quantity * rule.get_quantity)
          item.quantity : ℤ) : ℚ) * item.product.price)
      else some 0) = some d0 := hd0
    split at hd1
    · split at hd1
      · cases hd1
      · have hd2 : some (((min (Int.fdiv item.quantity rule.buy_quantity * rule.get_quantity)
            item.quantity : ℤ) : ℚ) * item.product.price) = some d0 := hd1
        cases hd2
        have hfd : 0 ≤ Int.fdiv item.quantity rule.buy_quantity :=
          Int.fdiv_nonneg hqty (by omega)
        have hfree0 : (0 : ℤ) ≤ Int.fdiv item.quantity rule.buy_quantity * rule.get_quantity :=
          mul_nonneg hfd hg0
        have hminle : min (Int.fdiv item.quantity rule.buy_quantity * rule.get_quantity)
            item.quantity ≤ item.quantity := min_le_right _ _
        have hmin0 : (0 : ℤ) ≤ min (Int.fdiv item.quantity rule.buy_quantity * rule.get_quantity)
            item.quantity := le_min hfree0 hqty
        constructor
        · exact mul_nonneg (by exact_mod_cast hmin0) hprice
        · have hc : ((min (Int.fdiv item.quantity rule.buy_quantity * rule.get_quantity)
              item.quantity : ℤ) : ℚ) ≤ (item.quantity : ℚ) := by exact_mod_cast hminle
          calc ((min (Int.fdiv item.quantity rule.buy_quantity * rule.get_quantity)
                item.quantity : ℤ) : ℚ) * item.product.price
              ≤ (item.quantity : ℚ) * item.product.price :=
                mul_le_mul_of_nonneg_right hc hprice
            _ = item.subtotal := by rw [CartItem.subtotal]; ring
    · have hd2 : some (0 : ℚ) = some d0 := hd1
      cases hd2
      exact ⟨le_refl 0, hsub⟩
  · rw [hdt] at hd0
    have hd1 : some (tieredLoop item.subtotal (sortByKey rule.tier_thresholds) 0)
        = some d0 := hd0
    cases hd1
    exact tieredLoop_bounds item.subtotal hsub _
      (fun tp htp => htier hdt tp ((perm_sortByKey _).mem_iff.1 htp)) 0
      (le_refl 0) hsub
  · rw [hdt] at hd0
    have hd1 : some (0 : ℚ) = some d0 := hd0
    cases hd1
    exact ⟨le_refl 0, hsub⟩

/-- Witness for C2 at the Scenario-2 input: a 20% rule capped at
150000 on a 1000000-subtotal item returns 150000, within all three
bounds. -/
theorem calculate_item_discount_bounds_witness :
    (0 : ℚ) ≤ 150000 ∧
      (150000 : ℚ) ≤ CartItem.subtotal ⟨⟨1, "p", 1000000, "c", 0, 0, 0⟩, 1⟩ ∧
      ∀ m, (⟨"r", .percentage, 20, 0, 0, some 150000, [], [], [], none, none, 0, 0, []⟩ :
          DiscountRule).max_discount = some m → (150000 : ℚ) ≤ m :=
  calculate_item_discount_bounds 0 ⟨⟨1, "p", 1000000, "c", 0, 0, 0⟩, 1⟩
    ⟨"r", .percentage, 20, 0, 0, some 150000, [], [], [], none, none, 0, 0, []⟩
    ⟨"id", "n", .bronze, 0, 0, 0⟩ 150000 (by norm_num) (by norm_num)
    (fun _ => by norm_num) (fun h => nomatch h) (fun h => nomatch h)
    (fun h => nomatch h)
    (fun m hm => by cases hm; norm_num)
    (by norm_num [calculate_item_discount, isRuleApplicable, DiscountRule.is_active,
      CartItem.subtotal, applyCap, min_def])

/-- `insertByKey` preserves sortedness by threshold. -/
theorem sorted_insertByKey (p : ℚ × ℚ) (l : List (ℚ × ℚ))
    (h : l.Sorted (fun a b => a.1 ≤ b.1)) :
    (insertByKey p l).Sorted (fun a b => a.1 ≤ b.1) := by
  induction l with
  | nil => simp [insertByKey]
  | cons q qs ih =>
      simp only [insertByKey]
      split
      · rename_i hpq
        rw [List.sorted_cons]
        refine ⟨?_, h⟩
        intro b hb
        rcases List.mem_cons.1 hb with rfl | hb2
        · exact hpq
        · exact le_trans hpq ((List.sorted_cons.1 h).1 b hb2)
      · rename_i hpq
        have hqp : q.1 ≤ p.1 := le_of_not_le hpq
        rw [List.sorted_cons] at h ⊢
        refine ⟨?_, ih h.2⟩
        intro b hb
        rcases List.mem_cons.1 ((perm_insertByKey p qs).mem_iff.1 hb) with rfl | hb2
        · exact hqp
        · exact h.1 b hb2

/-- The sorted threshold list is sorted by threshold. -/
theorem sorted_sortByKey (l : List (ℚ × ℚ)) :
    (sortByKey l).Sorted (fun a b => a.1 ≤ b.1) := by
  induction l with
  | nil => simp [sortByKey]
  | cons q qs ih =>
      simp only [sortByKey, List.foldr_cons] at ih ⊢
      exact sorted_insertByKey q _ ih

/-- If no pair's threshold is met, the tiered loop keeps its
accumulator. -/
theorem tieredLoop_unmet (s : ℚ) (L : List (ℚ × ℚ)) (d : ℚ)
    (h : ∀ tp ∈ L, ¬ tp.1 ≤ s) : tieredLoop s L d = d := by
  induction L generalizing d with
  | nil => rfl
  | cons tp rest ih =>
      simp only [tieredLoop]
      rw [if_neg (h tp (List.mem_cons_self _ _))]
      exact ih _ (fun q hq => h q (List.mem_cons_of_mem _ hq))

/-- Over a threshold-sorted list with pairwise-distinct thresholds, the
tiered loop returns the percent of the highest met threshold,
independently of the accumulator. -/
theorem tieredLoop_highest (s t p : ℚ) (hts : t ≤ s) :
    ∀ (L : List (ℚ × ℚ)) (d : ℚ), L.Sorted (fun a b => a.1 ≤ b.1) →
      (L.map Prod.fst).Nodup → (t, p) ∈ L →
      (∀ q ∈ L, q.1 ≤ s → q.1 ≤ t) →
      tieredLoop s L d = s * (p / 100) := by
  intro L
  induction L with
  | nil => intro d _ _ hmem _; cases hmem
  | cons tp rest ih =>
      intro d hsort hnd hmem hmax
      rcases List.mem_cons.1 hmem with heq | hmem2
      · subst heq
        simp only [tieredLoop]
        rw [if_pos hts]
        apply tieredLoop_unmet
        intro q hq hqs
        have h1 : t ≤ q.1 := (List.sorted_cons.1 hsort).1 q hq
        have h2 : q.1 ≠ t := by
          intro hqt
          rw [List.map_cons, List.nodup_cons] at hnd
          have hmm : q.1 ∈ rest.map Prod.fst := List.mem_map_of_mem Prod.fst hq
          rw [hqt] at hmm
          exact hnd.1 hmm
        exact h2 (le_antisymm (hmax q (List.mem_cons_of_mem _ hq) hqs) h1)
      · simp only [tieredLoop]
        rw [List.map_cons, List.nodup_cons] at hnd
        exact ih _ (List.sorted_cons.1 hsort).2 hnd.2 hmem2
          (fun q hq hqs => hmax q (List.mem_cons_of_mem _ hq) hqs)

/-- C7: for an active, applicable Tiered rule (with pairwise-distinct
dict thresholds), `calculate_item_discount` evaluates the pairs in
ascending threshold order, each met threshold overwriting the
candidate, so the percent of the highest met threshold wins (capped by
`max_discount`); in particular thresholds 10000000 → 5% and
20000000 → 10% on a 25000000-subtotal item give 2500000, not a sum
across tiers. -/
theorem tiered_highest_threshold_wins :
    (∀ (now : ℤ) (item : CartItem) (rule : DiscountRule) (customer : Customer) (t p : ℚ),
      rule.discount_type = DiscountType.tiered →
      rule.is_active now = true → isRuleApplicable item rule customer = true →
      (rule.tier_thresholds.map Prod.fst).Nodup →
      (t, p) ∈ rule.tier_thresholds → t ≤ item.subtotal →
      (∀ q ∈ rule.tier_thresholds, q.1 ≤ item.subtotal → q.1 ≤ t) →
      calculate_item_discount now item rule customer =
        some (applyCap (item.subtotal * (p / 100)) rule.max_discount)) ∧
    calculate_item_discount 0 ⟨⟨1, "p", 25000000, "c", 0, 0, 0⟩, 1⟩
        ⟨"r", .tiered, 0, 0, 0, none, [], [], [], none, none, 0, 0,
          [(10000000, 5), (20000000, 10)]⟩
        ⟨"id", "n", .bronze, 0, 0, 0⟩ = some 2500000 := by
  constructor
  · intro now item rule customer t p hdt ha happ hnd hmem hts hmax
    simp only [calculate_item_discount, ha, happ, hdt]
    rw [tieredLoop_highest item.subtotal t p hts (sortByKey rule.tier_thresholds) 0
      (sorted_sortByKey _)
      (((perm_sortByKey _).map Prod.fst).nodup_iff.2 hnd)
      ((perm_sortByKey _).mem_iff.2 hmem)
      (fun q hq hqs => hmax q ((perm_sortByKey _).mem_iff.1 hq) hqs)]
    rfl
  · norm_num [calculate_item_discount, isRuleApplicable, DiscountRule.is_active,
      CartItem.subtotal, sortByKey, insertByKey, tieredLoop, applyCap]

/-- Witness for C7 at the Scenario-4 rule. -/
theorem tiered_highest_threshold_wins_witness :
    calculate_item_discount 0 ⟨⟨2, "q", 25000000, "c", 0, 0, 0⟩, 1⟩
        ⟨"r", .tiered, 0, 0, 0, none, [], [], [], none, none, 0, 0,
          [(10000000, 5), (20000000, 10)]⟩
        ⟨"id", "n", .bronze, 0, 0, 0⟩ =
      some (applyCap (CartItem.subtotal ⟨⟨2, "q", 25000000, "c", 0, 0, 0⟩, 1⟩ * (10 / 100))
        none) :=
  tiered_highest_threshold_wins.1 0 ⟨⟨2, "q", 25000000, "c", 0, 0, 0⟩, 1⟩
    ⟨"r", .tiered, 0, 0, 0, none, [], [], [], none, none, 0, 0,
      [(10000000, 5), (20000000, 10)]⟩
    ⟨"id", "n", .bronze, 0, 0, 0⟩ 20000000 10 rfl rfl
    (by norm_num [isRuleApplicable, CartItem.subtotal])
    (by norm_num)
    (by norm_num)
    (by norm_num [CartItem.subtotal])
    (by
      intro q hq hqle
      rcases List.mem_cons.1 hq with rfl | hq2
      · norm_num
      · rcases List.mem_cons.1 hq2 with rfl | hq3
        · norm_num
        · cases hq3)

/-- `calculate_item_discount` returns normally whenever the rule is not
a BuyXGetY rule with `buy_quantity = 0`. -/
theorem calc_item_isSome (now : ℤ) (item : CartItem) (r : DiscountRule)
    (customer : Customer)
    (hbx : r.discount_type = DiscountType.buy_x_get_y → r.buy_quantity ≠ 0) :
    (calculate_item_discount now item r customer).isSome = true := by
  simp only [calculate_item_discount]
  split
  · rfl
  split
  · rfl
  cases hdt : r.discount_type
  · rfl
  · rfl
  · have h1 : r.buy_quantity ≠ 0 := hbx hdt
    split
    any_goals rfl
    rw [if_neg h1]
    split <;> rfl
  · rfl
  · rfl

/-- Under the same proviso, the returned amount is `discountValue`. -/
theorem calc_eq_discountValue (now : ℤ) (item : CartItem) (customer : Customer)
    (r : DiscountRule)
    (hbx : r.discount_type = DiscountType.buy_x_get_y → r.buy_quantity ≠ 0) :
    calculate_item_discount now item r customer =
      some (discountValue now item customer r) := by
  have h := calc_item_isSome now item r customer hbx
  cases hv : calculate_item_discount now item r customer with
  | none => rw [hv] at h; cases h
  | some d => simp only [discountValue, hv, Option.getD_some]

/-- The best-rule scan agrees with the reference recursion when every
rule returns normally. -/
theorem bestLoop_eq_specPair (now : ℤ) (item : CartItem) (customer : Customer)
    (rs : List DiscountRule)
    (h : ∀ r ∈ rs, r.discount_type = DiscountType.buy_x_get_y → r.buy_quantity ≠ 0) :
    ∀ (b : ℚ) (w : Option DiscountRule),
      bestLoop now item customer rs b w = some (specPair now item customer rs b w) := by
  induction rs with
  | nil => intro b w; rfl
  | cons r rs ih =>
      intro b w
      have hr := calc_eq_discountValue now item customer r (h r (List.mem_cons_self _ _))
      have htail := fun r' hr' => h r' (List.mem_cons_of_mem r hr')
      simp only [bestLoop, specPair, hr]
      rcases lt_or_le b (discountValue now item customer r) with hlt | hle
      · rw [if_pos hlt, if_pos hlt]
        exact ih htail _ _
      · rw [if_neg (not_lt.2 hle), if_neg (not_lt.2 hle)]
        exact ih htail _ _

/-- First component of the reference recursion: a running maximum. -/
theorem specPair_fst (now : ℤ) (item : CartItem) (customer : Customer) :
    ∀ (rs : List DiscountRule) (b : ℚ) (w : Option DiscountRule),
      (specPair now item customer rs b w).1 =
        rs.foldl (fun x r => max x (discountValue now item customer r)) b := by
  intro rs
  induction rs with
  | nil => intro b w; rfl
  | cons r rs ih =>
      intro b w
      simp only [specPair, List.foldl_cons]
      rcases lt_or_le b (discountValue now item customer r) with hlt | hle
      · rw [if_pos hlt, ih, max_eq_right hlt.le]
      · rw [if_neg (not_lt.2 hle), ih, max_eq_left hle]

/-- The accumulator never decreases along the reference recursion. -/
theorem specPair_fst_le (now : ℤ) (item : CartItem) (customer : Customer) :
    ∀ (rs : List DiscountRule) (b : ℚ) (w : Option DiscountRule),
      b ≤ (specPair now item customer rs b w).1 := by
  intro rs
  induction rs with
  | nil => intro b w; exact le_refl b
  | cons r rs ih =>
      intro b w
      simp only [specPair]
      rcases lt_or_le b (discountValue now item customer r) with hlt | hle
      · rw [if_pos hlt]
        exact le_trans hlt.le (ih _ _)
      · rw [if_neg (not_lt.2 hle)]
        exact ih _ _

/-- A fold of `max` either keeps its seed or attains a list element. -/
theorem foldl_max_attained (f : DiscountRule → ℚ) :
    ∀ (rs : List DiscountRule) (b : ℚ),
      rs.foldl (fun x r => max x (f r)) b = b ∨
        ∃ r ∈ rs, f r = rs.foldl (fun x r => max x (f r)) b := by
  intro rs
  induction rs with
  | nil => intro b; left; rfl
  | cons r rs ih =>
      intro b
      simp only [List.foldl_cons]
      rcases ih (max b (f r)) with h | ⟨r', hr', h⟩
      · rcases le_or_lt (f r) b with hle | hlt
        · left; rw [h, max_eq_left hle]
        · right
          exact ⟨r, List.mem_cons_self _ _, by rw [h, max_eq_right hlt.le]⟩
      · right
        exact ⟨r', List.mem_cons_of_mem _ hr', h⟩

/-- Second component of the reference recursion: the first rule
attaining the final maximum, when the seed was strictly improved. -/
theorem specPair_snd (now : ℤ) (item : CartItem) (customer : Customer) :
    ∀ (rs : List DiscountRule) (b : ℚ) (w : Option DiscountRule),
      (specPair now item customer rs b w).2 =
        if b < (specPair now item customer rs b w).1 then
          rs.find? (fun r =>
            decide (discountValue now item customer r = (specPair now item customer rs b w).1))
        else w := by
  intro rs
  induction rs with
  | nil =>
      intro b w
      simp only [specPair]
      rw [if_neg (lt_irrefl b)]
  | cons r rs ih =>
      intro b w
      simp only [specPair]
      rcases lt_or_le b (discountValue now item customer r) with hlt | hle
      · simp only [if_pos hlt]
        rw [ih]
        have hbM : b < (specPair now item customer rs (discountValue now item customer r)
            (some r)).1 :=
          lt_of_lt_of_le hlt (specPair_fst_le now item customer rs _ _)
        simp only [if_pos hbM]
        by_cases hdvM : discountValue now item customer r =
            (specPair now item customer rs (discountValue now item customer r) (some r)).1
        · simp only [if_neg (show ¬ discountValue now item customer r <
              (specPair now item customer rs (discountValue now item customer r) (some r)).1 by
                rw [← hdvM]; exact lt_irrefl _)]
          rw [List.find?_cons_of_pos _ (by simpa using hdvM)]
        · have hlt2 : discountValue now item customer r <
              (specPair now item customer rs (discountValue now item customer r) (some r)).1 :=
            lt_of_le_of_ne (specPair_fst_le now item customer rs _ _) hdvM
          simp only [if_pos hlt2]
          rw [List.find?_cons_of_neg _ (by simpa using hdvM)]
      · simp only [if_neg (not_lt.2 hle)]
        rw [ih]
        by_cases hbM : b < (specPair now item customer rs b w).1
        · have hdvM : ¬ (discountValue now item customer r =
              (specPair now item customer rs b w).1) := by
            intro h
            rw [← h] at hbM
            exact absurd hbM (not_lt.2 hle)
          simp only [if_pos hbM]
          rw [List.find?_cons_of_neg _ (by simpa using hdvM)]
        · simp only [if_neg hbM]

/-- The best-rule scan computes exactly the specified best discount and
winning rule (ties keep the first rule in list order). -/
theorem bestForItem_eq (now : ℤ) (rules : List DiscountRule) (item : CartItem)
    (customer : Customer)
    (hbx : ∀ r ∈ rules, r.discount_type = DiscountType.buy_x_get_y → r.buy_quantity ≠ 0) :
    bestForItem now rules item customer =
      some (bestDiscountSpec now rules item customer, bestRuleSpec now rules item customer) := by
  have h1 := specPair_fst now item customer rules 0 none
  have h2 := specPair_snd now item customer rules 0 none
  rw [h1] at h2
  unfold bestForItem
  rw [bestLoop_eq_specPair now item customer rules hbx 0 none]
  apply congrArg
  apply Prod.ext
  · rw [h1]; rfl
  · rw [h2]; rfl

/-- The best discount is never negative. -/
theorem bestDiscountSpec_nonneg (now : ℤ) (rules : List DiscountRule) (item : CartItem)
    (customer : Customer) : 0 ≤ bestDiscountSpec now rules item customer := by
  unfold bestDiscountSpec
  have h : ∀ (rs : List DiscountRule) (b : ℚ),
      b ≤ rs.foldl (fun x r => max x (discountValue now item customer r)) b := by
    intro rs
    induction rs with
    | nil => intro b; exact le_refl b
    | cons r rs ih =>
        intro b
        simp only [List.foldl_cons]
        exact le_trans (le_max_left _ _) (ih _)
  exact h rules 0

/-- When the best discount is positive, a first attaining rule exists. -/
theorem bestRuleSpec_attained (now : ℤ) (rules : List DiscountRule) (item : CartItem)
    (customer : Customer) (hpos : 0 < bestDiscountSpec now rules item customer) :
    ∃ r, bestRuleSpec now rules item customer = some r ∧ r ∈ rules ∧
      discountValue now item customer r = bestDiscountSpec now rules item customer := by
  have hm := foldl_max_attained (discountValue now item customer) rules 0
  unfold bestDiscountSpec at hpos ⊢
  rcases hm with h | ⟨r, hr, hfr⟩
  · rw [h] at hpos
    exact absurd hpos (lt_irrefl 0)
  · have hs : (rules.find? (fun r => decide (discountValue now item customer r =
        rules.foldl (fun x r => max x (discountValue now item customer r)) 0))).isSome = true := by
      rw [List.find?_isSome]
      exact ⟨r, hr, by simp [hfr]⟩
    obtain ⟨x, hx⟩ := Option.isSome_iff_exists.1 hs
    refine ⟨x, ?_, List.mem_of_find?_eq_some hx, ?_⟩
    · unfold bestRuleSpec bestDiscountSpec
      rw [if_pos hpos]
      exact hx
    · have := List.find?_some hx
      simpa using this

/-- Membership after a Python dict assignment: an entry of the new dict
is an old entry or the inserted pair. -/
theorem mem_dictInsert (l : List ((ℤ × ℤ) × ItemDiscountEntry)) (k : ℤ × ℤ)
    (v : ItemDiscountEntry) (e : (ℤ × ℤ) × ItemDiscountEntry)
    (he : e ∈ dictInsert l k v) : e ∈ l ∨ e = (k, v) := by
  unfold dictInsert at he
  split at he
  · obtain ⟨p, hp, hpe⟩ := List.mem_map.1 he
    by_cases hpk : p.1 = k
    · rw [if_pos hpk] at hpe
      right; exact hpe.symm
    · rw [if_neg hpk] at hpe
      left; exact hpe ▸ hp
  · rcases List.mem_append.1 he with h | h
    · left; exact h
    · right; simpa using h

set_option maxHeartbeats 1600000 in
/-- Invariant of the per-item loop of
`calculate_best_discount_combination`: the loop returns normally,
leaves `subtotal` untouched, adds every item's best discount to
`total_discount`, records only positive discounts, and collects
exactly the winning rules' names without duplicates. -/
theorem comboLoop_spec (now : ℤ) (customer : Customer) (rules : List DiscountRule)
    (hbx : ∀ r ∈ rules, r.discount_type = DiscountType.buy_x_get_y → r.buy_quantity ≠ 0) :
    ∀ (items : List CartItem) (report : DiscountReport),
      ∃ rep, comboLoop now customer rules items report = some rep ∧
        rep.subtotal = report.subtotal ∧
        rep.total_discount = report.total_discount +
          (items.map (fun item => bestDiscountSpec now rules item customer)).sum ∧
        (∀ e ∈ rep.item_discounts, e ∈ report.item_discounts ∨ 0 < e.2.discount_amount) ∧
        (∀ n, n ∈ rep.applied_rules ↔ n ∈ report.applied_rules ∨
          ∃ item ∈ items, 0 < bestDiscountSpec now rules item customer ∧
            ∃ r, bestRuleSpec now rules item customer = some r ∧ r.name = n) ∧
        (report.applied_rules.Nodup → rep.applied_rules.Nodup) := by
  intro items
  induction items with
  | nil =>
      intro report
      refine ⟨report, rfl, rfl, by simp, fun e he => Or.inl he, fun n => by simp, id⟩
  | cons item rest ih =>
      intro report
      by_cases hpos : 0 < bestDiscountSpec now rules item customer
      · obtain ⟨r, hrx, hrmem, hdvr⟩ := bestRuleSpec_attained now rules item customer hpos
        set report' : DiscountReport := { report with
          item_discounts := dictInsert report.item_discounts
            (item.product.id, item.quantity)
            ⟨item.product.name, bestDiscountSpec now rules item customer, r.name,
              item.subtotal⟩
          total_discount := report.total_discount + bestDiscountSpec now rules item customer
          applied_rules :=
            if r.name ∈ report.applied_rules then report.applied_rules
            else report.applied_rules ++ [r.name] } with hrep'
        have hstep : comboStep now customer rules report item = some report' := by
          simp only [comboStep, bestForItem_eq now rules item customer hbx, hrx,
            if_pos hpos]
        have hloop : comboLoop now customer rules (item :: rest) report =
            comboLoop now customer rules rest report' := by
          simp only [comboLoop, hstep]
        obtain ⟨rep, h1, h2, h3, h4, h5, h6⟩ := ih report'
        refine ⟨rep, by rw [hloop]; exact h1, ?_, ?_, ?_, ?_, ?_⟩
        · rw [h2, hrep']
        · rw [h3]
          simp only [hrep', List.map_cons, List.sum_cons]
          ring
        · intro e he
          rcases h4 e he with h | h
          · rcases mem_dictInsert _ _ _ e (by simpa [hrep'] using h) with h' | h'
            · exact Or.inl h'
            · right
              rw [h']
              exact hpos
          · exact Or.inr h
        · intro n
          rw [h5]
          have happ' : n ∈ report'.applied_rules ↔ n ∈ report.applied_rules ∨ n = r.name := by
            simp only [hrep']
            by_cases hin : r.name ∈ report.applied_rules
            · rw [if_pos hin]
              constructor
              · exact Or.inl
              · rintro (h | rfl)
                · exact h
                · exact hin
            · rw [if_neg hin]
              simp
          have hitem : (0 < bestDiscountSpec now rules item customer ∧
              ∃ r', bestRuleSpec now rules item customer = some r' ∧ r'.name = n) ↔
              n = r.name := by
            constructor
            · rintro ⟨-, r', hr', hname⟩
              rw [hrx] at hr'
              injection hr' with h
              subst h
              exact hname.symm
            · rintro rfl
              exact ⟨hpos, r, hrx, rfl⟩
          rw [happ']
          simp only [List.mem_cons, exists_eq_or_imp, hitem]
          tauto
        · intro hnd
          apply h6
          simp only [hrep']
          by_cases hin : r.name ∈ report.applied_rules
          · rw [if_pos hin]
            exact hnd
          · rw [if_neg hin]
            simp [List.nodup_append, hnd, hin]
      · have hstep : comboStep now customer rules report item = some report := by
          simp only [comboStep, bestForItem_eq now rules item customer hbx, if_neg hpos]
        have hloop : comboLoop now customer rules (item :: rest) report =
            comboLoop now customer rules rest report := by
          simp only [comboLoop, hstep]
        have hbd0 : bestDiscountSpec now rules item customer = 0 :=
          le_antisymm (not_lt.1 hpos) (bestDiscountSpec_nonneg now rules item customer)
        obtain ⟨rep, h1, h2, h3, h4, h5, h6⟩ := ih report
        refine ⟨rep, by rw [hloop]; exact h1, h2, ?_, h4, ?_, h6⟩
        · rw [h3]
          simp [hbd0]
        · intro n
          rw [h5]
          constructor
          · rintro (h | ⟨it, hit, hP⟩)
            · exact Or.inl h
            · exact Or.inr ⟨it, List.mem_cons_of_mem _ hit, hP⟩
          · rintro (h | ⟨it, hit, hP⟩)
            · exact Or.inl h
            · rcases List.mem_cons.1 hit with rfl | hit2
              · exact absurd hP.1 hpos
              · exact Or.inr ⟨it, hit2, hP⟩

/-- C3: `calculate_best_discount_combination` gives every item the rule
with the strictly greatest discount (ties keep the first rule in the
caller-supplied order — `bestDiscountSpec` is the running maximum and
`bestRuleSpec` the first rule attaining it); items with best discount
0 produce no itemized entry but their subtotal is still counted;
`total_discount` is the sum of the per-item winning discounts; and
`applied_rules` lists, without duplicates, exactly the names of rules
that won at least one item. -/
theorem best_discount_combination_spec (now : ℤ) (rules : List DiscountRule)
    (cart_items : List CartItem) (customer : Customer)
    (hbx : ∀ r ∈ rules, r.discount_type = DiscountType.buy_x_get_y → r.buy_quantity ≠ 0) :
    ∃ rep, calculate_best_discount_combination now rules cart_items customer = some rep ∧
      rep.subtotal = (cart_items.map CartItem.subtotal).sum ∧
      (∀ item : CartItem, bestForItem now rules item customer =
        some (bestDiscountSpec now rules item customer, bestRuleSpec now rules item customer)) ∧
      rep.total_discount =
        (cart_items.map (fun item => bestDiscountSpec now rules item customer)).sum ∧
      (∀ e ∈ rep.item_discounts, 0 < e.2.discount_amount) ∧
      (∀ n, n ∈ rep.applied_rules ↔ ∃ item ∈ cart_items,
        0 < bestDiscountSpec now rules item customer ∧
        ∃ r, bestRuleSpec now rules item customer = some r ∧ r.name = n) ∧
      rep.applied_rules.Nodup := by
  obtain ⟨rep, h1, h2, h3, h4, h5, h6⟩ :=
    comboLoop_spec now customer rules hbx cart_items
      ⟨[], 0, [], (cart_items.map CartItem.subtotal).sum⟩
  refine ⟨rep, h1, by rw [h2],
    fun item => bestForItem_eq now rules item customer hbx, by rw [h3]; simp, ?_, ?_, ?_⟩
  · intro e he
    rcases h4 e he with h | h
    · exact absurd h (List.not_mem_nil e)
    · exact h
  · intro n
    rw [h5 n]
    simp
  · exact h6 List.nodup_nil

/-- Witness for C3: one 10% rule on a single 1000-subtotal item. -/
theorem best_discount_combination_spec_witness :
    ∃ rep, calculate_best_discount_combination 0
        [⟨"r10", .percentage, 10, 0, 0, none, [], [], [], none, none, 0, 0, []⟩]
        [⟨⟨1, "p", 1000, "c", 0, 0, 0⟩, 1⟩] ⟨"id", "n", .bronze, 0, 0, 0⟩ = some rep ∧
      rep.subtotal =
        ([(⟨⟨1, "p", 1000, "c", 0, 0, 0⟩, 1⟩ : CartItem)].map CartItem.subtotal).sum ∧
      (∀ item : CartItem, bestForItem 0
          [⟨"r10", .percentage, 10, 0, 0, none, [], [], [], none, none, 0, 0, []⟩]
          item ⟨"id", "n", .bronze, 0, 0, 0⟩ =
        some (bestDiscountSpec 0
            [⟨"r10", .percentage, 10, 0, 0, none, [], [], [], none, none, 0, 0, []⟩]
            item ⟨"id", "n", .bronze, 0, 0, 0⟩,
          bestRuleSpec 0
            [⟨"r10", .percentage, 10, 0, 0, none, [], [], [], none, none, 0, 0, []⟩]
            item ⟨"id", "n", .bronze, 0, 0, 0⟩)) ∧
      rep.total_discount =
        ([(⟨⟨1, "p", 1000, "c", 0, 0, 0⟩, 1⟩ : CartItem)].map (fun item =>
          bestDiscountSpec 0
            [⟨"r10", .percentage, 10, 0, 0, none, [], [], [], none, none, 0, 0, []⟩]
            item ⟨"id", "n", .bronze, 0, 0, 0⟩)).sum ∧
      (∀ e ∈ rep.item_discounts, 0 < e.2.discount_amount) ∧
      (∀ n, n ∈ rep.applied_rules ↔
        ∃ item ∈ [(⟨⟨1, "p", 1000, "c", 0, 0, 0⟩, 1⟩ : CartItem)],
          0 < bestDiscountSpec 0
            [⟨"r10", .percentage, 10, 0, 0, none, [], [], [], none, none, 0, 0, []⟩]
            item ⟨"id", "n", .bronze, 0, 0, 0⟩ ∧
          ∃ r, bestRuleSpec 0
              [⟨"r10", .percentage, 10, 0, 0, none, [], [], [], none, none, 0, 0, []⟩]
              item ⟨"id", "n", .bronze, 0, 0, 0⟩ = some r ∧ r.name = n) ∧
      rep.applied_rules.Nodup :=
  best_discount_combination_spec 0
    [⟨"r10", .percentage, 10, 0, 0, none, [], [], [], none, none, 0, 0, []⟩]
    [⟨⟨1, "p", 1000, "c", 0, 0, 0⟩, 1⟩] ⟨"id", "n", .bronze, 0, 0, 0⟩
    (by
      intro r hr h
      rw [List.mem_singleton] at hr
      subst hr
      exact absurd h (by decide))

/-- C4 counterexample: a cart item with quantity 0 — invalid input per
the claim — is processed silently: the call returns a normal breakdown
(zero subtotal, base shipping 50000), not a rejection. -/
theorem invalid_input_not_rejected_cex :
    calculate_final_price 0 [] [⟨⟨1, "p", 100000, "c", 0, 0, 0⟩, 0⟩]
        ⟨"id", "n", .bronze, 0, 0, 0⟩ true =
      some ⟨0, 0, 0, 0, 0, 50000, 50000, 0, ⟨[], 0, [], 0⟩, 0⟩ := by
  norm_num [calculate_final_price, calculate_best_discount_combination, comboLoop,
    comboStep, bestForItem, bestLoop, CartItem.subtotal, calculate_shipping_fee,
    tax_rate, Customer.get_tier_discount]

/-- C4 (amended): the engine performs no input validation at all —
every call returns a normal breakdown (never a rejection), including
on carts with non-positive quantities or negative prices, costs or
weights, provided only that no BuyXGetY rule has `buy_quantity = 0`
(the one input that raises, with a `ZeroDivisionError`, mid-pipeline
rather than up front). -/
theorem calculate_final_price_no_validation (now : ℤ) (rules : List DiscountRule)
    (cart_items : List CartItem) (customer : Customer) (ap : Bool)
    (hbx : ∀ r ∈ rules, r.discount_type = DiscountType.buy_x_get_y → r.buy_quantity ≠ 0) :
    (calculate_final_price now rules cart_items customer ap).isSome = true := by
  obtain ⟨rep, h1, -, -, -, -, -⟩ := comboLoop_spec now customer rules hbx cart_items
    ⟨[], 0, [], (cart_items.map CartItem.subtotal).sum⟩
  simp only [calculate_final_price, calculate_best_discount_combination, h1]
  rfl

/-- Witness for C4: a cart whose only item has negative price, weight
and quantity is still priced normally. -/
theorem calculate_final_price_no_validation_witness :
    (calculate_final_price 0 [] [⟨⟨2, "q", -5, "c", 0, 0, -1⟩, -3⟩]
        ⟨"id", "n", .bronze, 0, 0, 0⟩ true).isSome = true :=
  calculate_final_price_no_validation 0 [] [⟨⟨2, "q", -5, "c", 0, 0, -1⟩, -3⟩]
    ⟨"id", "n", .bronze, 0, 0, 0⟩ true
    (by intro r hr; exact absurd hr (List.not_mem_nil r))

/-- A rule with no tier restriction yields the same per-item discount
for every customer (the customer enters only through the tier filter). -/
theorem calc_item_customer_indep (now : ℤ) (item : CartItem) (r : DiscountRule)
    (c1 c2 : Customer) (hct : r.customer_tiers = []) :
    calculate_item_discount now item r c1 = calculate_item_discount now item r c2 := by
  have happ : isRuleApplicable item r c1 = isRuleApplicable item r c2 := by
    simp [isRuleApplicable, hct]
  simp only [calculate_item_discount, happ]

/-- The best-rule scan is customer-independent when no rule restricts
tiers. -/
theorem bestLoop_customer_indep (now : ℤ) (item : CartItem) (c1 c2 : Customer)
    (rs : List DiscountRule) (h : ∀ r ∈ rs, r.customer_tiers = []) :
    ∀ (b : ℚ) (w : Option DiscountRule),
      bestLoop now item c1 rs b w = bestLoop now item c2 rs b w := by
  induction rs with
  | nil => intro b w; rfl
  | cons r rs ih =>
      intro b w
      have htail := fun r' hr' => h r' (List.mem_cons_of_mem r hr')
      simp only [bestLoop,
        calc_item_customer_indep now item r c1 c2 (h r (List.mem_cons_self _ _))]
      cases calculate_item_discount now item r c2 with
      | none => rfl
      | some d =>
          dsimp only
          rcases lt_or_le b d with hlt | hle
          · rw [if_pos hlt, if_pos hlt]
            exact ih htail _ _
          · rw [if_neg (not_lt.2 hle), if_neg (not_lt.2 hle)]
            exact ih htail _ _

/-- One step of the per-item loop is customer-independent when no rule
restricts tiers. -/
theorem comboStep_customer_indep (now : ℤ) (c1 c2 : Customer)
    (rules : List DiscountRule) (h : ∀ r ∈ rules, r.customer_tiers = [])
    (report : DiscountReport) (item : CartItem) :
    comboStep now c1 rules report item = comboStep now c2 rules report item := by
  simp only [comboStep, bestForItem]
  rw [bestLoop_customer_indep now item c1 c2 rules h 0 none]

/-- The whole per-item loop is customer-independent when no rule
restricts tiers. -/
theorem comboLoop_customer_indep (now : ℤ) (c1 c2 : Customer)
    (rules : List DiscountRule) (h : ∀ r ∈ rules, r.customer_tiers = []) :
    ∀ (items : List CartItem) (report : DiscountReport),
      comboLoop now c1 rules items report = comboLoop now c2 rules items report := by
  intro items
  induction items with
  | nil => intro report; rfl
  | cons item rest ih =>
      intro report
      simp only [comboLoop, comboStep_customer_indep now c1 c2 rules h report item]
      cases comboStep now c2 rules report item with
      | none => rfl
      | some report' => exact ih report'

/-- `calculate_best_discount_combination` is customer-independent when
no rule restricts tiers. -/
theorem best_combo_customer_indep (now : ℤ) (rules : List DiscountRule)
    (cart_items : List CartItem) (c1 c2 : Customer)
    (h : ∀ r ∈ rules, r.customer_tiers = []) :
    calculate_best_discount_combination now rules cart_items c1 =
      calculate_best_discount_combination now rules cart_items c2 := by
  simp only [calculate_best_discount_combination]
  exact comboLoop_customer_indep now c1 c2 rules h cart_items _

/-- The tier discount percent table is non-decreasing in tier rank. -/
theorem tier_discount_monotone (c : Customer) (t1 t2 : CustomerTier)
    (h : tierRank t1 ≤ tierRank t2) :
    Customer.get_tier_discount { c with tier := t1 } ≤
      Customer.get_tier_discount { c with tier := t2 } := by
  cases t1 <;> cases t2 <;> simp_all [tierRank, Customer.get_tier_discount] <;> norm_num

/-- C5 counterexample: a 50% rule restricted to Bronze customers makes
the Bronze total (105000) strictly smaller than the Silver total
(154500) on the same 100000 cart, so raising the tier raised the
total. -/
theorem tier_monotonicity_cex :
    calculate_final_price 0
        [⟨"b50", .percentage, 50, 0, 0, none, [], [], [.bronze], none, none, 0, 0, []⟩]
        [⟨⟨1, "p", 100000, "c", 0, 0, 0⟩, 1⟩] ⟨"id", "n", .bronze, 0, 0, 0⟩ true =
      some ⟨100000, 50000, 0, 50000, 5000, 50000, 105000, 0,
        ⟨[((1, 1), ⟨"p", 50000, "b50", 100000⟩)], 50000, ["b50"], 100000⟩, 50⟩ ∧
    calculate_final_price 0
        [⟨"b50", .percentage, 50, 0, 0, none, [], [], [.bronze], none, none, 0, 0, []⟩]
        [⟨⟨1, "p", 100000, "c", 0, 0, 0⟩, 1⟩] ⟨"id", "n", .silver, 0, 0, 0⟩ true =
      some ⟨100000, 0, 5000, 5000, 9500, 50000, 154500, 0, ⟨[], 0, [], 100000⟩, 5⟩ ∧
    PriceBreakdown.total ⟨100000, 50000, 0, 50000, 5000, 50000, 105000, 0,
        ⟨[((1, 1), ⟨"p", 50000, "b50", 100000⟩)], 50000, ["b50"], 100000⟩, 50⟩ <
      PriceBreakdown.total
        ⟨100000, 0, 5000, 5000, 9500, 50000, 154500, 0, ⟨[], 0, [], 100000⟩, 5⟩ := by
  refine ⟨?_, ?_, by norm_num⟩
  · norm_num [calculate_final_price, calculate_best_discount_combination, comboLoop,
      comboStep, bestForItem, bestLoop, calculate_item_discount, isRuleApplicable,
      DiscountRule.is_active, CartItem.subtotal, applyCap, dictInsert,
      calculate_shipping_fee, tax_rate, Customer.get_tier_discount]
  · norm_num [calculate_final_price, calculate_best_discount_combination, comboLoop,
      comboStep, bestForItem, bestLoop, calculate_item_discount, isRuleApplicable,
      DiscountRule.is_active, CartItem.subtotal, applyCap, dictInsert,
      calculate_shipping_fee, tax_rate, Customer.get_tier_discount,
      (by decide : CustomerTier.silver ≠ CustomerTier.bronze)]

/-- C5 (amended): when no rule carries a `customer_tiers` restriction
(so rule applicability is tier-independent) and the product discount
does not exceed the subtotal, raising the customer's loyalty tier
(Bronze < Silver < Gold < Platinum < VIP) never increases the total. -/
theorem tier_monotonicity (now : ℤ) (rules : List DiscountRule)
    (cart_items : List CartItem) (c : Customer) (t1 t2 : CustomerTier) (ap : Bool)
    (r1 r2 : PriceBreakdown)
    (hct : ∀ r ∈ rules, r.customer_tiers = [])
    (hrank : tierRank t1 ≤ tierRank t2)
    (h1 : calculate_final_price now rules cart_items { c with tier := t1 } ap = some r1)
    (h2 : calculate_final_price now rules cart_items { c with tier := t2 } ap = some r2)
    (hpd : r1.product_discount ≤ r1.subtotal) :
    r2.total ≤ r1.total := by
  simp only [calculate_final_price] at h1 h2
  have hsame := best_combo_customer_indep now rules cart_items
    { c with tier := t1 } { c with tier := t2 } hct
  cases hdi : calculate_best_discount_combination now rules cart_items
      { c with tier := t1 } with
  | none =>
      rw [hdi] at h1
      exact absurd h1 (by simp)
  | some di =>
      have hdi2 : calculate_best_discount_combination now rules cart_items
          { c with tier := t2 } = some di := by
        rw [← hsame]
        exact hdi
      rw [hdi] at h1
      rw [hdi2] at h2
      simp only [Option.some.injEq] at h1 h2
      subst h1
      subst h2
      have hpd' : di.total_discount ≤ (cart_items.map CartItem.subtotal).sum := hpd
      have hp12 : Customer.get_tier_discount { c with tier := t1 } ≤
          Customer.get_tier_discount { c with tier := t2 } :=
        tier_discount_monotone c t1 t2 hrank
      have hcd : (if ap = true then
            ((cart_items.map CartItem.subtotal).sum - di.total_discount) *
              (Customer.get_tier_discount { c with tier := t1 } / 100)
          else 0) ≤ (if ap = true then
            ((cart_items.map CartItem.subtotal).sum - di.total_discount) *
              (Customer.get_tier_discount { c with tier := t2 } / 100)
          else 0) := by
        cases ap
        · simp
        · simp only [if_pos rfl]
          apply mul_le_mul_of_nonneg_left _ (sub_nonneg.2 hpd')
          linarith
      dsimp only
      simp only [tax_rate]
      linarith [hcd]

/-- Witness for C5: Bronze versus VIP on a 100000 cart with no rules —
the VIP total 138000 does not exceed the Bronze total 160000. -/
theorem tier_monotonicity_witness :
    PriceBreakdown.total
        ⟨100000, 0, 20000, 20000, 8000, 50000, 138000, 0, ⟨[], 0, [], 100000⟩, 20⟩ ≤
      PriceBreakdown.total
        ⟨100000, 0, 0, 0, 10000, 50000, 160000, 0, ⟨[], 0, [], 100000⟩, 0⟩ :=
  tier_monotonicity 0 [] [⟨⟨1, "p", 100000, "c", 0, 0, 0⟩, 1⟩]
    ⟨"id", "n", .bronze, 0, 0, 0⟩ .bronze .vip true
    ⟨100000, 0, 0, 0, 10000, 50000, 160000, 0, ⟨[], 0, [], 100000⟩, 0⟩
    ⟨100000, 0, 20000, 20000, 8000, 50000, 138000, 0, ⟨[], 0, [], 100000⟩, 20⟩
    (by intro r hr; exact absurd hr (List.not_mem_nil r))
    (by decide)
    (by norm_num [calculate_final_price, calculate_best_discount_combination, comboLoop,
      comboStep, bestForItem, bestLoop, CartItem.subtotal, calculate_shipping_fee,
      tax_rate, Customer.get_tier_discount])
    (by norm_num [calculate_final_price, calculate_best_discount_combination, comboLoop,
      comboStep, bestForItem, bestLoop, CartItem.subtotal, calculate_shipping_fee,
      tax_rate, Customer.get_tier_discount])
    (by norm_num)
